import Mathlib

/-!
Verification of the session state machine and action-resolution engine of
`server.py` (GesseritSource/server), a FastAPI/WebSocket multiplayer
tactical-combat server.  The Python game state is a nest of dictionaries;
we embed it as structures over association lists (`List (String × _)`),
with Python `dict` reads, writes and deletes modelled by the `lookupK`,
`setK`, `modifyK` and `eraseK` helpers below.  Randomness
(`random.randint`, `random.choice`, `random.sample`) and the external JSON
game-data files are abstracted into an `Rng` record of oracle values that
the resolution step consumes; theorems that depend on the ranges of the
random draws state those ranges as hypotheses matching the `randint`
bounds in the source.
-/

/-- Python `d.get(k)` / `d[k]` on a string-keyed dict, embedded as lookup of
the first matching key in an association list (dict keys are unique, so the
first match is the only one). -/
def lookupK (m : List (String × α)) (k : String) : Option α :=
  match m with
  | [] => none
  | (k', v) :: rest => if k' = k then some v else lookupK rest k

/-- Python `d.get(k, dflt)`. -/
def getDK (m : List (String × α)) (k : String) (d : α) : α :=
  (lookupK m k).getD d

/-- Python `d[k] = v`: overwrite the entry in place if the key is present
(dict update preserves insertion order), else append the new key at the
end (dict insertion order). -/
def setK (m : List (String × α)) (k : String) (v : α) : List (String × α) :=
  match m with
  | [] => [(k, v)]
  | (k', v') :: rest => if k' = k then (k, v) :: rest else (k', v') :: setK rest k v

/-- Python `d[k] = f(d[k])` (read-modify-write of an existing entry, e.g.
`state["gold"][player] -= cost`).  On a missing key Python raises
`KeyError` before mutating anything; here the map is returned unchanged,
which agrees with the observable room state in every reachable
configuration (the keys involved are always populated by `join_room`). -/
def modifyK (m : List (String × α)) (k : String) (f : α → α) : List (String × α) :=
  match m with
  | [] => []
  | (k', v') :: rest => if k' = k then (k, f v') :: rest else (k', v') :: modifyK rest k f

/-- Python `del d[k]`. -/
def eraseK (m : List (String × α)) (k : String) : List (String × α) :=
  match m with
  | [] => []
  | (k', v') :: rest => if k' = k then rest else (k', v') :: eraseK rest k

/-- Python `list.index(x)` on a list of strings (first index of the first
occurrence; callers guard membership, mirroring the `ValueError` raised on
an absent element). -/
def indexOfStr (l : List String) (k : String) : Nat :=
  match l with
  | [] => 0
  | x :: rest => if x = k then 0 else indexOfStr rest k + 1

/-- A shop or loot item (`generate_shop_items` / `generate_loot` entries);
only the `name` and `cost` fields participate in the resolution logic
(lines 443-458 of `server.py`). -/
structure Item where
  name : String
  cost : Int
deriving DecidableEq

/-- An enemy record as built by `generate_encounter` (lines 323-331).
`etype` embeds the Python key `"type"`; `position` is the `[row, col]`
pair. -/
structure Enemy where
  name : String
  etype : String
  hp : Int
  max_hp : Int
  damage : Int
  ac : Int
  position : Int × Int
deriving DecidableEq

/-- A player record as built by `create_new_player` (lines 142-158).
`attributes` embeds the Str/Con/Wis/Int map. -/
structure Player where
  name : String
  player_class : String
  subclass : String
  level : Int
  spells : List String
  weapon : String
  inventory : List Item
  gold : Int
  save_slot : Int
  xp : Int
  ac : Int
  attributes : List (String × Int)
  passive : String
  hp : Int
  max_hp : Int
deriving DecidableEq

/-- The per-room session state dict created in `create_room`
(lines 167-182).  The `grid` entry of the Python dict is initialised to a
6 by 6 array of `None` and never read or written again anywhere in the
source, so it is omitted.  The `winner` key is absent until one of the
terminal checks (lines 508-515) writes it; that is embedded as an
`Option`. -/
structure GameState where
  turn : Option String
  phase : String
  player_positions : List (String × (Int × Int))
  enemies : List (String × Enemy)
  player_hp : List (String × Int)
  inventory : List (String × List Item)
  spells : List (String × List String)
  gold : List (String × Int)
  level : List (String × Int)
  xp : List (String × Int)
  shop_items : List Item
  loot_pool : List Item
  encounter_number : Int
  winner : Option String
deriving DecidableEq

/-- A room entry of the global `games` dict (lines 164-183). -/
structure Room where
  players : List (String × Player)
  player_order : List String
  state : GameState
deriving DecidableEq

/-- The inbound action message.  The source probes the action dict for one
of the keys `move` / `attack` / `spell` / `shop` / `loot` / `next_phase`
(lines 401-460); a message with none of those keys falls through the whole
`if`/`elif` chain, embedded as the `other` constructor. -/
inductive GameAction where
  | move (direction : String)
  | attack (target : String)
  | spell (name : String) (target : Option String)
  | shop (item : String)
  | loot (item : String)
  | next_phase
  | other
deriving DecidableEq

/-- One enemy entry of an encounter template from `encounters.json`
(external data file): its type string and starting row/column. -/
structure EncEnemySpec where
  etype : String
  row : Int
  col : Int
deriving DecidableEq

/-- Oracle for the random draws and external-file reads performed during
one resolution step: `atkDamage` is `random.randint(5, 15)` (line 421),
`healAmount` is `random.randint(10, 20)` (line 431), `spellDamage` is
`random.randint(15, 25)` (line 438), `encounterSpecs` is the encounter
template chosen by `random.choice` from `encounters.json` (lines 284-299),
`scatterPos` is the per-player `[randint(0, 2), randint(0, 2)]` scatter
(line 469), `lootGen` / `shopGen` are `generate_loot` / `generate_shop_items`,
and `goldAward` is the per-player `random.randint(10, 30)` (line 479). -/
structure Rng where
  atkDamage : Int
  healAmount : Int
  spellDamage : Int
  encounterSpecs : Int → List EncEnemySpec
  scatterPos : String → Int × Int
  lootGen : List Item
  shopGen : List Item
  goldAward : String → Int

/-- The `enemy_stats` dict literal of `generate_encounter`
(lines 302-319), mapping enemy type to (hp, attack, ac). -/
def enemy_stats_table : List (String × (Int × Int × Int)) :=
  [("Goblin", (30, 8, 11)), ("Orc", (50, 12, 13)), ("Skeleton", (40, 10, 12)),
   ("Bandit", (35, 9, 12)), ("Troll", (70, 15, 14)), ("Shaman", (35, 6, 12)),
   ("Necromancer", (30, 5, 12)), ("Healer", (28, 4, 11)), ("Berserker", (45, 10, 12)),
   ("Alchemist", (32, 7, 11)), ("Witch", (28, 6, 12)), ("Sniper", (30, 14, 12)),
   ("Guardian", (60, 8, 15)), ("Enchanter", (30, 5, 12)), ("Dragon", (120, 20, 17)),
   ("Lich King", (100, 18, 16))]

/-- Stat selection `enemy_stats.get(enemy_type, ...)` with the fallback
`{'hp': 30, 'attack': 8, 'ac': 11}` of line 321. -/
def enemy_stats (t : String) : Int × Int × Int :=
  getDK enemy_stats_table t (30, 8, 11)

/-- The main branch of `generate_encounter` (lines 286-332): builds the enemy
dict from the chosen encounter template, naming each enemy
`f"{enemy_type} {i+1}"` and drawing stats from `enemy_stats`.  (The
fallback branch for a missing `encounters.json`, lines 334-349, likewise
produces only enemies with hit points `20 + 5 * encounter_number > 0`.) -/
def generate_encounter (specs : List EncEnemySpec) : List (String × Enemy) :=
  specs.enum.map (fun p =>
    let s := enemy_stats p.2.etype
    let nm := p.2.etype ++ " " ++ toString (p.1 + 1)
    (nm, { name := nm, etype := p.2.etype.toLower, hp := s.1, max_hp := s.1,
           damage := s.2.1, ac := s.2.2, position := (p.2.row, p.2.col) }))

/-- The destination of a move request (lines 404-414): one step in the
named direction, refused (position unchanged) at the grid edge or for an
unrecognized direction string.  Index 0 of the Python position list is the
first component, index 1 the second. -/
def move_dest (dir : String) (p : Int × Int) : Int × Int :=
  if dir = "up" ∧ 0 < p.2 then (p.1, p.2 - 1)
  else if dir = "down" ∧ p.2 < 5 then (p.1, p.2 + 1)
  else if dir = "left" ∧ 0 < p.1 then (p.1 - 1, p.2)
  else if dir = "right" ∧ p.1 < 5 then (p.1 + 1, p.2)
  else p

/-- Shared shape of the attack handler (lines 417-424) and the
Fireball/Magic Missile branch (lines 436-441): if the target name is a key
of the enemies dict, subtract the damage from its hit points and delete
the entry when they drop to 0 or below. -/
def damage_enemy (st : GameState) (target : String) (dmg : Int) : GameState :=
  match lookupK st.enemies target with
  | some e =>
    let hp' := e.hp - dmg
    if hp' ≤ 0 then { st with enemies := eraseK st.enemies target }
    else { st with enemies := setK st.enemies target { e with hp := hp' } }
  | none => st

/-- The per-player increments of the loot transition (lines 477-479):
`state["xp"][p] += 100` and `state["gold"][p] += randint(10, 30)` for each
player in `player_order`. -/
def award_all (order : List String) (m : List (String × Int)) (f : String → Int) :
    List (String × Int) :=
  order.foldl (fun acc p => modifyK acc p (fun v => v + f p)) m

/-- The random scatter of players at combat start (lines 468-469):
`state["player_positions"][p] = [randint(0, 2), randint(0, 2)]` for each
player in `player_order`. -/
def scatter_players (order : List String) (pos : List (String × (Int × Int)))
    (f : String → Int × Int) : List (String × (Int × Int)) :=
  order.foldl (fun acc p => setK acc p (f p)) pos

/-- The `next_phase` handler (lines 460-496).  The shop-to-setup branch
additionally writes every player's record to a save file
(`save_player_data`), which is external I/O and leaves the room state
untouched apart from the phase. -/
def next_phase_action (rng : Rng) (room : Room) (st : GameState) : GameState :=
  if st.phase = "setup" then
    let n := st.encounter_number + 1
    { st with phase := "combat", encounter_number := n,
              enemies := generate_encounter (rng.encounterSpecs n),
              player_positions :=
                scatter_players room.player_order st.player_positions rng.scatterPos }
  else if st.phase = "combat" then
    if st.enemies.isEmpty then
      { st with phase := "loot", loot_pool := rng.lootGen,
                xp := award_all room.player_order st.xp (fun _ => 100),
                gold := award_all room.player_order st.gold rng.goldAward }
    else st
  else if st.phase = "loot" then
    { st with phase := "shop", shop_items := rng.shopGen }
  else if st.phase = "shop" then
    { st with phase := "setup" }
  else st

/-- The action dispatch chain of `websocket_endpoint` (lines 400-496),
acting on the room's session state.  Spell handling (lines 426-441): a
name in {Healing Word, Cure Wounds} heals the caster, capped at the
caster's `max_hp` from the room's player record; a name in
{Fireball, Magic Missile} damages the named enemy target; any other name
is ignored.  Shop handling (lines 443-450): first listing whose name
matches and whose cost the buyer can afford, gold deducted, item appended.
Loot handling (lines 452-458): first pool entry whose name matches,
appended to the inventory and removed from the pool.  Where the source
would raise `KeyError` on a state key absent for the acting player
(possible only for states never produced by `join_room`), the state is
returned unchanged. -/
def handle_action (rng : Rng) (room : Room) (player : String) (action : GameAction) :
    GameState :=
  let st := room.state
  match action with
  | .move dir =>
      let cur := getDK st.player_positions player (0, 0)
      { st with player_positions := setK st.player_positions player (move_dest dir cur) }
  | .attack target => damage_enemy st target rng.atkDamage
  | .spell name target =>
      if name = "Healing Word" ∨ name = "Cure Wounds" then
        match lookupK room.players player, lookupK st.player_hp player with
        | some pd, some h =>
            let healed := min (h + rng.healAmount) pd.max_hp
            { st with player_hp := setK st.player_hp player healed }
        | _, _ => st
      else if name = "Fireball" ∨ name = "Magic Missile" then
        match target with
        | some t => damage_enemy st t rng.spellDamage
        | none => st
      else st
  | .shop itemName =>
      match lookupK st.gold player with
      | some playerGold =>
          match st.shop_items.find?
              (fun it => it.name == itemName && decide (it.cost ≤ playerGold)) with
          | some it =>
              { st with gold := modifyK st.gold player (fun g => g - it.cost),
                        inventory := modifyK st.inventory player (fun inv => inv ++ [it]) }
          | none => st
      | none => st
  | .loot itemName =>
      match st.loot_pool.find? (fun it => it.name == itemName) with
      | some it =>
          { st with inventory := modifyK st.inventory player (fun inv => inv ++ [it]),
                    loot_pool := st.loot_pool.erase it }
      | none => st
  | .next_phase => next_phase_action rng room st
  | .other => st

/-- Turn rotation after an action (lines 498-501):
`player_order[(player_order.index(turn) + 1) % len(player_order)]`.
An absent current turn holder raises `ValueError` in the source; that
partiality is embedded as `none`. -/
def advance_turn (order : List String) (current : String) : Option String :=
  if current ∈ order then order[(indexOfStr order current + 1) % order.length]?
  else none

/-- Iterated turn rotation (`advance_turn` applied `n` times). -/
def advance_iter (order : List String) (current : String) : Nat → Option String
  | 0 => some current
  | n + 1 =>
      match advance_turn order current with
      | some nxt => advance_iter order nxt n
      | none => none

/-- One full resolution of an accepted action (lines 400-515): run the
tagged handler, rotate the turn, then run the two terminal checks — empty
enemy set in combat sets `winner = "Players"` (lines 508-509), no living
player in combat sets `winner = "Enemies"` (lines 511-515). -/
def resolve_action (rng : Rng) (room : Room) (player : String) (action : GameAction) :
    Room :=
  let st1 := handle_action rng room player action
  let st2 := { st1 with turn := st1.turn.bind (advance_turn room.player_order) }
  let st3 := if st2.enemies.isEmpty ∧ st2.phase = "combat"
             then { st2 with winner := some "Players" } else st2
  let alive := room.player_order.filter (fun p => decide (0 < getDK st3.player_hp p 0))
  let st4 := if alive.isEmpty ∧ st3.phase = "combat"
             then { st3 with winner := some "Enemies" } else st3
  { room with state := st4 }

/-- The per-message step of `websocket_endpoint` (line 395): an inbound
action is processed only when the session's `turn` equals the sending
player; otherwise the connection merely sleeps and the room is
untouched. -/
def websocket_step (rng : Rng) (room : Room) (player : String) (action : GameAction) :
    Room :=
  if room.state.turn = some player then resolve_action rng room player action else room

/-- The `WebSocketDisconnect` bookkeeping (lines 521-534): remove the
player from `player_order` and from the player map; if the departed player
held the turn, reassign it to the new first entry of `player_order`, or to
null if none remain. -/
def disconnect (room : Room) (player : String) : Room :=
  if player ∈ room.player_order then
    let order' := room.player_order.erase player
    let players' := if (lookupK room.players player).isSome
                    then eraseK room.players player else room.players
    let turn' := if room.state.turn = some player then order'.head? else room.state.turn
    { players := players', player_order := order',
      state := { room.state with turn := turn' } }
  else room

/-- The result of a `join_room` request: the structured error dicts of
lines 198, 206 and 209, or the success payload of line 230. -/
inductive JoinResult where
  | error (msg : String)
  | success (player_data : Player)
deriving DecidableEq

/-- Python truthiness of an optional query string: `not player_class` is
true for an absent parameter and for the empty string. -/
def falsyStr : Option String → Bool
  | none => true
  | some s => s == ""

/-- The room mutation performed by a successful join (lines 204-228): set
the player's record, append to `player_order` if new, initialise the turn
to the first entry when unset, and copy hp / inventory / spells / gold /
level / xp into the session state. -/
def join_with (room : Room) (player : String) (pd : Player) : Room :=
  let order' := if player ∈ room.player_order then room.player_order
                else room.player_order ++ [player]
  let turn' := match room.state.turn with
               | none => order'.head?
               | some t => some t
  { players := setK room.players player pd,
    player_order := order',
    state := { room.state with
                 turn := turn',
                 player_hp := setK room.state.player_hp player pd.hp,
                 inventory := setK room.state.inventory player pd.inventory,
                 spells := setK room.state.spells player pd.spells,
                 gold := setK room.state.gold player pd.gold,
                 level := setK room.state.level player pd.level,
                 xp := setK room.state.xp player pd.xp } }

/-- The `join_room` endpoint (lines 187-230) over the global `games`
registry.  `create` abstracts `create_new_player` (whose output is shaped
by the external class/spell/weapon/passive JSON files), and `loadResult`
abstracts `load_player_data` (the save-file read): `none` embeds a missing
or unreadable save file. -/
def join_room (create : String → String → String → Int → Player)
    (loadResult : Option Player) (games : List (String × Room)) (room_id : String)
    (player : String) (player_class : Option String) (subclass : Option String)
    (save_slot : Int) (load_save : Bool) : List (String × Room) × JoinResult :=
  match lookupK games room_id with
  | none => (games, .error "Room not found")
  | some room =>
      if load_save then
        match loadResult with
        | none => (games, .error "Save file not found")
        | some pd => (setK games room_id (join_with room player pd), .success pd)
      else
        if falsyStr player_class || falsyStr subclass then
          (games, .error "Player class and subclass required for new characters")
        else
          let pd := create player (player_class.getD "") (subclass.getD "") save_slot
          (setK games room_id (join_with room player pd), .success pd)

/-- The fresh session state of `create_room` (lines 164-183); the inert
`grid` entry is omitted (see `GameState`). -/
def fresh_room : Room :=
  { players := [], player_order := [],
    state := { turn := none, phase := "setup", player_positions := [], enemies := [],
               player_hp := [], inventory := [], spells := [], gold := [], level := [],
               xp := [], shop_items := [], loot_pool := [], encounter_number := 0,
               winner := none } }

/-- Whether an action is a heal spell (the one action that writes a
player's hit points, lines 430-435). -/
def is_heal_action : GameAction → Bool
  | .spell nm _ => nm == "Healing Word" || nm == "Cure Wounds"
  | _ => false

/-- Modelled from the spec: `Grid.distance`, the Manhattan metric
`|Δrow| + |Δcolumn|` of §4.1 and the glossary.  The source has no distance
or adjacency computation anywhere; this definition exists only to state,
in counterexamples, the adjacency facts the spec's claims refer to. -/
def manhattan (a b : Int × Int) : Int :=
  |a.1 - b.1| + |a.2 - b.2|

/-- The keys of an association list are pairwise distinct (always true of
an embedded Python dict). -/
def KeysNodup (m : List (String × α)) : Prop :=
  (m.map Prod.fst).Nodup

instance (m : List (String × α)) : Decidable (KeysNodup m) :=
  inferInstanceAs (Decidable (m.map Prod.fst).Nodup)

/-- A concrete random/external oracle with every draw inside its
`randint` range: attack 7 ∈ [5, 15], heal 12 ∈ [10, 20], spell 20 ∈
[15, 25], gold award 10 ∈ [10, 30]. -/
def rng0 : Rng :=
  { atkDamage := 7, healAmount := 12, spellDamage := 20,
    encounterSpecs := fun _ => [], scatterPos := fun _ => (0, 0),
    lootGen := [], shopGen := [], goldAward := fun _ => 10 }

/-- A concrete level-1 Warrior record of the shape `create_new_player`
produces. -/
def mk_player (nm : String) : Player :=
  { name := nm, player_class := "Warrior", subclass := "Fighter", level := 1,
    spells := ["Fireball", "Healing Word"], weapon := "Sword", inventory := [],
    gold := 100, save_slot := 1, xp := 0, ac := 24,
    attributes := [("Str", 15), ("Con", 14), ("Wis", 13), ("Int", 12)],
    passive := "None", hp := 20, max_hp := 24 }

/-- A concrete enemy at a given position with given hit points (Goblin
stats from `enemy_stats`). -/
def mk_enemy (nm : String) (pos : Int × Int) (hp : Int) : Enemy :=
  { name := nm, etype := "goblin", hp := hp, max_hp := 30, damage := 8, ac := 11,
    position := pos }

/-- A concrete one-player combat-phase room: player `A` at `posA` with
20 hit points, the given enemies, shop listing and winner field. -/
def mk_room1 (enemies : List (String × Enemy)) (posA : Int × Int)
    (shop : List Item) (winner : Option String) : Room :=
  { players := [("A", mk_player "A")],
    player_order := ["A"],
    state := { turn := some "A", phase := "combat", player_positions := [("A", posA)],
               enemies := enemies, player_hp := [("A", 20)], inventory := [("A", [])],
               spells := [("A", ["Fireball"])], gold := [("A", 100)],
               level := [("A", 1)], xp := [("A", 0)], shop_items := shop,
               loot_pool := [], encounter_number := 1, winner := winner } }

/-- Room for the claim-C1 counterexample: a living Goblin with attack
damage 8 stands at `(0, 1)`, adjacent to player `A` at `(0, 0)`. -/
def roomC1 : Room := mk_room1 [("Goblin 1", mk_enemy "Goblin 1" (0, 1) 30)] (0, 0) [] none

/-- Room for the claim-C2 counterexample: `winner` is already set, yet the
turn holder can still act on the living Goblin. -/
def roomC2 : Room :=
  mk_room1 [("Goblin 1", mk_enemy "Goblin 1" (3, 3) 30)] (0, 0) [] (some "Players")

/-- Room for the claim-C3 counterexample: the Goblin stands at `(5, 5)`,
Manhattan distance 10 from player `A` at `(0, 0)` — nowhere near
adjacent. -/
def roomC3 : Room := mk_room1 [("Goblin 1", mk_enemy "Goblin 1" (5, 5) 30)] (0, 0) [] none

/-- Room for the claim-C4 counterexample: three enemies, the second and
third within Manhattan distance 1 of the Fireball target `Orc 1`. -/
def roomC4 : Room :=
  mk_room1 [("Orc 1", mk_enemy "Orc 1" (2, 2) 30),
            ("Orc 2", mk_enemy "Orc 2" (2, 3) 30),
            ("Orc 3", mk_enemy "Orc 3" (3, 2) 30)] (2, 1) [] none

/-- Room for the claim-C5 counterexample: a living Goblin occupies
`(1, 0)`, the destination of a `right` move by player `A` at `(0, 0)`. -/
def roomC5 : Room := mk_room1 [("Goblin 1", mk_enemy "Goblin 1" (1, 0) 30)] (0, 0) [] none

/-- Room for the claim-C6 witness: one affordable shop listing. -/
def roomC6 : Room :=
  mk_room1 [("Goblin 1", mk_enemy "Goblin 1" (5, 5) 30)] (0, 0)
    [{ name := "Iron Sword", cost := 100 }] none

/-- Room for the claim-C7 witness: a single player who holds the turn, so
that their disconnect empties `player_order`. -/
def roomC7 : Room := mk_room1 [("Goblin 1", mk_enemy "Goblin 1" (5, 5) 30)] (0, 0) [] none

/-- Living enemies only: no entry of the active enemy dict has hit points
at or below zero. -/
def enemies_alive (st : GameState) : Prop :=
  ∀ p ∈ st.enemies, 0 < (Prod.snd p).hp

instance (st : GameState) : Decidable (enemies_alive st) :=
  inferInstanceAs (Decidable (∀ p ∈ st.enemies, 0 < (Prod.snd p).hp))

/-- A concrete `create_new_player` stand-in for the claim-C10 witness. -/
def create0 : String → String → String → Int → Player :=
  fun nm _ _ _ => mk_player nm

/-- Reading a map after a write: the written key returns the new value,
every other key is unaffected. -/
theorem lookupK_setK (m : List (String × α)) (k n : String) (v : α) :
    lookupK (setK m k v) n = if k = n then some v else lookupK m n := by
  induction m with
  | nil => simp [setK, lookupK]
  | cons hd tl ih =>
    obtain ⟨k', v'⟩ := hd
    by_cases hk : k' = k
    · subst hk
      simp only [setK, if_pos rfl, lookupK]
      by_cases hn : k' = n <;> simp [hn]
    · simp only [setK, if_neg hk, lookupK]
      by_cases hn : k' = n
      · subst hn
        have hkn : k ≠ k' := fun h => hk h.symm
        simp [if_neg hkn]
      · simp [hn, ih]

/-- Reading a map after a read-modify-write. -/
theorem lookupK_modifyK (m : List (String × α)) (k n : String) (f : α → α) :
    lookupK (modifyK m k f) n =
      if k = n then (lookupK m k).map f else lookupK m n := by
  induction m with
  | nil => simp [modifyK, lookupK]
  | cons hd tl ih =>
    obtain ⟨k', v'⟩ := hd
    by_cases hk : k' = k
    · subst hk
      simp only [modifyK, if_pos rfl, lookupK, if_pos rfl]
      by_cases hn : k' = n <;> simp [hn]
    · simp only [modifyK, if_neg hk, lookupK]
      by_cases hn : k' = n
      · subst hn
        have hkn : k ≠ k' := fun h => hk h.symm
        simp [if_neg hkn]
      · simp [hn, ih]

/-- Reading a key other than the deleted one is unaffected by a delete. -/
theorem lookupK_eraseK_ne (m : List (String × α)) (k n : String) (h : n ≠ k) :
    lookupK (eraseK m k) n = lookupK m n := by
  induction m with
  | nil => simp [eraseK]
  | cons hd tl ih =>
    obtain ⟨k', v'⟩ := hd
    by_cases hk : k' = k
    · subst hk
      have hne : k' ≠ n := fun hh => h hh.symm
      simp [eraseK, lookupK, hne]
    · simp only [eraseK, if_neg hk, lookupK]
      by_cases hn : k' = n
      · simp [hn]
      · simp [hn, ih]

/-- A key absent from a map looks up to nothing. -/
theorem lookupK_eq_none_of_not_mem (m : List (String × α)) (k : String)
    (h : k ∉ m.map Prod.fst) : lookupK m k = none := by
  induction m with
  | nil => rfl
  | cons hd tl ih =>
    obtain ⟨k', v'⟩ := hd
    simp only [List.map_cons, List.mem_cons] at h
    push_neg at h
    have hne : k' ≠ k := fun hh => h.1 hh.symm
    simp [lookupK, hne, ih h.2]

/-- With distinct keys, the deleted key is gone after a delete. -/
theorem lookupK_eraseK_self (m : List (String × α)) (k : String) (hnd : KeysNodup m) :
    lookupK (eraseK m k) k = none := by
  induction m with
  | nil => rfl
  | cons hd tl ih =>
    obtain ⟨k', v'⟩ := hd
    simp only [KeysNodup, List.map_cons, List.nodup_cons] at hnd
    by_cases hk : k' = k
    · subst hk
      simp only [eraseK, if_pos rfl]
      exact lookupK_eq_none_of_not_mem tl k' hnd.1
    · simp [eraseK, hk, lookupK, ih hnd.2]

/-- A successful lookup exhibits a member of the association list. -/
theorem lookupK_some_mem {m : List (String × α)} {k : String} {v : α}
    (h : lookupK m k = some v) : (k, v) ∈ m := by
  induction m with
  | nil => simp [lookupK] at h
  | cons hd tl ih =>
    obtain ⟨k', v'⟩ := hd
    simp only [lookupK] at h
    by_cases hk : k' = k
    · subst hk
      rw [if_pos rfl] at h
      injection h with h'
      subst h'
      exact List.mem_cons_self _ _
    · rw [if_neg hk] at h
      exact List.mem_cons_of_mem _ (ih h)

/-- Every member of a map after a write is an old member or the written
pair. -/
theorem mem_setK {m : List (String × α)} {k : String} {v : α} {p : String × α}
    (h : p ∈ setK m k v) : p ∈ m ∨ p = (k, v) := by
  induction m with
  | nil =>
    simp only [setK, List.mem_singleton] at h
    exact Or.inr h
  | cons hd tl ih =>
    obtain ⟨k', v'⟩ := hd
    by_cases hk : k' = k
    · subst hk
      simp only [setK, if_pos rfl] at h
      rcases List.mem_cons.mp h with h1 | h1
      · exact Or.inr h1
      · exact Or.inl (List.mem_cons_of_mem _ h1)
    · simp only [setK, if_neg hk] at h
      rcases List.mem_cons.mp h with h1 | h1
      · exact Or.inl (by rw [h1]; exact List.mem_cons_self _ _)
      · rcases ih h1 with h2 | h2
        · exact Or.inl (List.mem_cons_of_mem _ h2)
        · exact Or.inr h2

/-- Deletion only removes entries. -/
theorem mem_eraseK {m : List (String × α)} {k : String} {p : String × α}
    (h : p ∈ eraseK m k) : p ∈ m := by
  induction m with
  | nil => simp [eraseK] at h
  | cons hd tl ih =>
    obtain ⟨k', v'⟩ := hd
    by_cases hk : k' = k
    · subst hk
      simp only [eraseK, if_pos rfl] at h
      exact List.mem_cons_of_mem _ h
    · simp only [eraseK, if_neg hk] at h
      rcases List.mem_cons.mp h with h1 | h1
      · exact List.mem_cons.mpr (Or.inl h1)
      · exact List.mem_cons_of_mem _ (ih h1)

/-- Applying `list.index` to a member gives a valid index. -/
theorem indexOfStr_lt_length {l : List String} {k : String} (h : k ∈ l) :
    indexOfStr l k < l.length := by
  induction l with
  | nil => cases h
  | cons x rest ih =>
    by_cases hx : x = k
    · simp [indexOfStr, hx]
    · have hm : k ∈ rest := by
        rcases List.mem_cons.mp h with h1 | h1
        · exact absurd h1.symm hx
        · exact h1
      simp only [indexOfStr, if_neg hx, List.length_cons]
      exact Nat.succ_lt_succ (ih hm)

/-- Indexing at `list.index` of a member returns the member. -/
theorem getElem_indexOfStr {l : List String} {k : String} (h : k ∈ l) :
    l[indexOfStr l k]? = some k := by
  induction l with
  | nil => cases h
  | cons x rest ih =>
    by_cases hx : x = k
    · simp [indexOfStr, hx]
    · have hm : k ∈ rest := by
        rcases List.mem_cons.mp h with h1 | h1
        · exact absurd h1.symm hx
        · exact h1
      simp only [indexOfStr, if_neg hx, List.getElem?_cons_succ]
      exact ih hm

/-- On a duplicate-free list, `list.index` inverts indexing. -/
theorem indexOfStr_getElem {l : List String} (hnd : l.Nodup) (i : Nat)
    (hi : i < l.length) : indexOfStr l l[i] = i := by
  induction l generalizing i with
  | nil => simp at hi
  | cons x rest ih =>
    rcases List.nodup_cons.mp hnd with ⟨hx, hrest⟩
    cases i with
    | zero => simp [indexOfStr]
    | succ j =>
      have hj : j < rest.length := by
        simpa using hi
      have hg : (x :: rest)[j + 1] = rest[j] := by simp
      rw [hg]
      have hne : x ≠ rest[j] := fun hh => hx (hh ▸ List.getElem_mem hj)
      simp only [indexOfStr, if_neg hne]
      rw [ih hrest j hj]

/-- Iterating the turn rotation from the `i`-th holder for `n` steps lands
on the `(i + n) mod N`-th holder. -/
theorem advance_iter_spec (order : List String) (hnd : order.Nodup) :
    ∀ (n i : Nat), (hi : i < order.length) →
      advance_iter order order[i] n = order[(i + n) % order.length]? := by
  intro n
  induction n with
  | zero =>
    intro i hi
    simp [advance_iter, Nat.mod_eq_of_lt hi, List.getElem?_eq_getElem hi]
  | succ n ih =>
    intro i hi
    have hlen : 0 < order.length := Nat.lt_of_le_of_lt (Nat.zero_le i) hi
    have hmem : order[i] ∈ order := List.getElem_mem hi
    have hidx : indexOfStr order order[i] = i := indexOfStr_getElem hnd i hi
    have hj : (i + 1) % order.length < order.length := Nat.mod_lt _ hlen
    simp only [advance_iter, advance_turn, if_pos hmem, hidx,
               List.getElem?_eq_getElem hj]
    rw [ih ((i + 1) % order.length) hj]
    congr 1
    rw [Nat.mod_add_mod]
    congr 1
    omega

theorem enemy_stats_hp_pos (t : String) : 0 < (enemy_stats t).1 := by
  unfold enemy_stats getDK
  cases h : lookupK enemy_stats_table t with
  | none => simp [h]
  | some v =>
    have hall : ∀ p ∈ enemy_stats_table, 0 < (Prod.snd p).1 := by decide
    have hv := hall (t, v) (lookupK_some_mem h)
    simpa [h] using hv

/-- Every enemy spawned by `generate_encounter` starts with positive hit
points. -/
theorem generate_encounter_alive (specs : List EncEnemySpec) :
    ∀ p ∈ generate_encounter specs, 0 < (Prod.snd p).hp := by
  intro p hp
  simp only [generate_encounter, List.mem_map] at hp
  obtain ⟨q, hq, rfl⟩ := hp
  exact enemy_stats_hp_pos q.2.etype

/-- Full characterization of the shared attack/spell damage handler:
a missing target is a no-op; otherwise only the target's entry changes,
removed when its hit points drop to 0 or below and updated in place
otherwise. -/
theorem damage_enemy_spec (st : GameState) (target : String) (dmg : Int)
    (hnd : KeysNodup st.enemies) :
    (lookupK st.enemies target = none → damage_enemy st target dmg = st) ∧
    (∀ e : Enemy, lookupK st.enemies target = some e →
      (∀ n, n ≠ target →
         lookupK (damage_enemy st target dmg).enemies n = lookupK st.enemies n) ∧
      (e.hp - dmg ≤ 0 → lookupK (damage_enemy st target dmg).enemies target = none) ∧
      (0 < e.hp - dmg →
         lookupK (damage_enemy st target dmg).enemies target =
           some { e with hp := e.hp - dmg })) := by
  constructor
  · intro h
    simp [damage_enemy, h]
  · intro e he
    refine ⟨?_, ?_, ?_⟩
    · intro n hn
      simp only [damage_enemy, he]
      split_ifs with h1
      · exact lookupK_eraseK_ne _ _ _ hn
      · rw [lookupK_setK, if_neg (fun hh => hn hh.symm)]
    · intro hle
      simp only [damage_enemy, he, if_pos hle]
      exact lookupK_eraseK_self _ _ hnd
    · intro hgt
      have hne : ¬ (e.hp - dmg ≤ 0) := by omega
      simp only [damage_enemy, he, if_neg hne]
      rw [lookupK_setK, if_pos rfl]

/-- The turn-rotation and terminal-check wrapper leaves the enemy dict of
the handler's result untouched. -/
theorem resolve_enemies_eq (rng : Rng) (room : Room) (player : String)
    (action : GameAction) :
    (resolve_action rng room player action).state.enemies =
      (handle_action rng room player action).enemies := by
  simp only [resolve_action]
  split_ifs <;> rfl

/-- The turn-rotation and terminal-check wrapper leaves the hit-point dict
of the handler's result untouched. -/
theorem resolve_hp_eq (rng : Rng) (room : Room) (player : String)
    (action : GameAction) :
    (resolve_action rng room player action).state.player_hp =
      (handle_action rng room player action).player_hp := by
  simp only [resolve_action]
  split_ifs <;> rfl

/-- Claim C7: turn advancement is cyclic over `player_order` —
`advance(current)` is the next entry after `current`, wrapping around, so
advancing the turn N times returns to the original player for a room with
N players; and when a disconnect empties `player_order`, the turn becomes
null. -/
theorem claim_c7_turn_rotation :
    (∀ (order : List String) (current : String), order.Nodup → current ∈ order →
       advance_iter order current order.length = some current) ∧
    (∀ (room : Room) (player : String), player ∈ room.player_order →
       room.state.turn = some player → room.player_order.erase player = [] →
       (disconnect room player).state.turn = none) := by
  constructor
  · intro order current hnd hmem
    have hi := indexOfStr_lt_length hmem
    have hget : order[indexOfStr order current] = current := by
      have h1 := getElem_indexOfStr hmem
      rw [List.getElem?_eq_getElem hi] at h1
      exact Option.some_inj.mp h1
    have h2 := advance_iter_spec order hnd order.length (indexOfStr order current) hi
    rw [hget] at h2
    rw [h2, Nat.add_mod_right, Nat.mod_eq_of_lt hi, List.getElem?_eq_getElem hi, hget]
  · intro room player hmem hturn herase
    simp [disconnect, hmem, hturn, herase]

/-- Witness for C7 at a three-player order and a one-player room. -/
theorem claim_c7_witness :
    advance_iter ["A", "B", "C"] "B" 3 = some "B" ∧
    (disconnect roomC7 "A").state.turn = none := by
  constructor
  · exact claim_c7_turn_rotation.1 ["A", "B", "C"] "B" (by decide) (by decide)
  · exact claim_c7_turn_rotation.2 roomC7 "A" (by decide) (by decide) (by decide)

/-- Claim C10: a join request resuming a saved character whose save file
does not exist returns the structured error `"Save file not found"` and
leaves the registry — hence the room, its player map, its `player_order`
and its turn — completely unchanged. -/
theorem claim_c10_missing_save
    (create : String → String → String → Int → Player)
    (games : List (String × Room)) (room_id player : String)
    (player_class subclass : Option String) (save_slot : Int) (room : Room)
    (hroom : lookupK games room_id = some room) :
    join_room create none games room_id player player_class subclass save_slot true =
      (games, JoinResult.error "Save file not found") := by
  simp [join_room, hroom]

/-- Witness for C10: a fresh room and a concrete load-save join. -/
theorem claim_c10_witness :
    join_room create0 none [("room_1", fresh_room)] "room_1" "B" none none 1 true =
      ([("room_1", fresh_room)], JoinResult.error "Save file not found") :=
  claim_c10_missing_save create0 [("room_1", fresh_room)] "room_1" "B" none none 1
    fresh_room (by decide)

/-- Claim C2, amended: an inbound action is ignored (room unchanged) only
when the sender does not hold the turn; a non-null `winner` is never
checked and does not block actions. -/
theorem claim_c2_turn_gate (rng : Rng) (room : Room) (player : String)
    (action : GameAction) (h : room.state.turn ≠ some player) :
    websocket_step rng room player action = room := by
  simp [websocket_step, h]

/-- Witness for the amended C2: a non-turn-holder's action is a no-op. -/
theorem claim_c2_witness :
    websocket_step rng0 roomC2 "B" (GameAction.attack "Goblin 1") = roomC2 :=
  claim_c2_turn_gate rng0 roomC2 "B" (GameAction.attack "Goblin 1") (by decide)

/-- Counterexample to C2 as stated: in `roomC2` the winner is already set
to `"Players"`, yet the turn holder's attack still lands — the enemy's hit
points drop from 30 to 23 and the session state is mutated. -/
theorem claim_c2_counterexample :
    roomC2.state.winner = some "Players" ∧
    roomC2.state.turn = some "A" ∧
    lookupK roomC2.state.enemies "Goblin 1" = some (mk_enemy "Goblin 1" (3, 3) 30) ∧
    lookupK (websocket_step rng0 roomC2 "A" (GameAction.attack "Goblin 1")).state.enemies
        "Goblin 1" = some (mk_enemy "Goblin 1" (3, 3) 23) ∧
    (websocket_step rng0 roomC2 "A" (GameAction.attack "Goblin 1")).state ≠
      roomC2.state := by
  refine ⟨rfl, rfl, by decide, by decide, by decide⟩

/-- Claim C9: an action whose tag is unrecognized (none of the handled
keys) falls through the whole dispatch chain: the step changes at most the
`turn` and `winner` fields of the session state — players, order,
positions, enemies, hit points, gold, inventories, spells, levels, xp,
shop, loot pool, phase and encounter counter are all untouched. -/
theorem claim_c9_unknown_noop (rng : Rng) (room : Room) (player : String) :
    ∃ t w, websocket_step rng room player GameAction.other =
      { room with state := { room.state with turn := t, winner := w } } := by
  by_cases ht : room.state.turn = some player
  · simp only [websocket_step, if_pos ht, resolve_action, handle_action]
    split_ifs <;> exact ⟨_, _, rfl⟩
  · exact ⟨room.state.turn, room.state.winner, by simp [websocket_step, ht]⟩

/-- Trivial position preservation: every entry of an unchanged enemy dict
is its own witness. -/
theorem pos_refl (l : List (String × Enemy)) :
    ∀ p ∈ l, ∃ e : Enemy, (p.1, e) ∈ l ∧ (Prod.snd p).position = e.position :=
  fun p hp => ⟨p.2, by rw [Prod.mk.eta]; exact hp, rfl⟩

/-- The damage handler either misses (state unchanged) or hits, deleting
or updating exactly the target's entry. -/
theorem damage_enemy_cases (st : GameState) (target : String) (dmg : Int) :
    damage_enemy st target dmg = st ∨
    (∃ e : Enemy, lookupK st.enemies target = some e ∧
      ((damage_enemy st target dmg = { st with enemies := eraseK st.enemies target } ∧
          e.hp - dmg ≤ 0) ∨
       (damage_enemy st target dmg =
          { st with enemies := setK st.enemies target { e with hp := e.hp - dmg } } ∧
          0 < e.hp - dmg))) := by
  unfold damage_enemy
  cases h : lookupK st.enemies target with
  | none => left; rfl
  | some e =>
    right
    refine ⟨e, rfl, ?_⟩
    dsimp only
    split_ifs with h1
    · exact Or.inl ⟨rfl, h1⟩
    · exact Or.inr ⟨rfl, by omega⟩

/-- The damage handler never moves an enemy: every surviving entry keeps
the position it had before. -/
theorem damage_enemy_pos_preserved (st : GameState) (target : String) (dmg : Int) :
    ∀ p ∈ (damage_enemy st target dmg).enemies,
      ∃ e : Enemy, (p.1, e) ∈ st.enemies ∧ (Prod.snd p).position = e.position := by
  intro p hp
  rcases damage_enemy_cases st target dmg with hcase | ⟨e, he, ⟨hcase, hg⟩ | ⟨hcase, hg⟩⟩
  · rw [hcase] at hp
    exact ⟨p.2, by rw [Prod.mk.eta]; exact hp, rfl⟩
  · rw [hcase] at hp
    exact ⟨p.2, by rw [Prod.mk.eta]; exact mem_eraseK hp, rfl⟩
  · rw [hcase] at hp
    rcases mem_setK hp with h1 | h1
    · exact ⟨p.2, by rw [Prod.mk.eta]; exact h1, rfl⟩
    · subst h1
      exact ⟨e, lookupK_some_mem he, rfl⟩

/-- The damage handler never touches the hit-point dict of players. -/
theorem damage_enemy_hp (st : GameState) (target : String) (dmg : Int) :
    (damage_enemy st target dmg).player_hp = st.player_hp := by
  rcases damage_enemy_cases st target dmg with hcase | ⟨e, _, ⟨hcase, _⟩ | ⟨hcase, _⟩⟩ <;>
    rw [hcase]

/-- Only a heal spell writes the player hit-point dict. -/
theorem handle_action_hp (rng : Rng) (room : Room) (player : String)
    (action : GameAction) (hheal : is_heal_action action = false) :
    (handle_action rng room player action).player_hp = room.state.player_hp := by
  cases action with
  | move dir => rfl
  | attack target => exact damage_enemy_hp room.state target rng.atkDamage
  | spell name target =>
    have hne : ¬(name = "Healing Word" ∨ name = "Cure Wounds") := by
      simp only [is_heal_action] at hheal
      intro hc
      rcases hc with hc | hc <;> simp [hc] at hheal
    simp only [handle_action, if_neg hne]
    split_ifs with h2
    · cases target with
      | none => rfl
      | some t => exact damage_enemy_hp room.state t rng.spellDamage
    · rfl
  | shop itemName =>
    simp only [handle_action]
    cases lookupK room.state.gold player with
    | none => rfl
    | some g =>
      dsimp only
      cases room.state.shop_items.find?
          (fun it => it.name == itemName && decide (it.cost ≤ g)) <;> rfl
  | loot itemName =>
    simp only [handle_action]
    cases room.state.loot_pool.find? (fun it => it.name == itemName) <;> rfl
  | next_phase =>
    simp only [handle_action, next_phase_action]
    split_ifs <;> rfl
  | other => rfl

/-- Outside the encounter-spawning `next_phase`, the action handler never
moves an enemy. -/
theorem handle_action_enemy_pos (rng : Rng) (room : Room) (player : String)
    (action : GameAction) (hnp : action ≠ GameAction.next_phase) :
    ∀ p ∈ (handle_action rng room player action).enemies,
      ∃ e : Enemy, (p.1, e) ∈ room.state.enemies ∧ (Prod.snd p).position = e.position := by
  cases action with
  | move dir => exact pos_refl _
  | attack target => exact damage_enemy_pos_preserved room.state target rng.atkDamage
  | spell name target =>
    simp only [handle_action]
    split_ifs with h1 h2
    · cases lookupK room.players player <;>
        cases lookupK room.state.player_hp player <;> exact pos_refl _
    · cases target with
      | none => exact pos_refl _
      | some t => exact damage_enemy_pos_preserved room.state t rng.spellDamage
    · exact pos_refl _
  | shop itemName =>
    simp only [handle_action]
    cases lookupK room.state.gold player with
    | none => exact pos_refl _
    | some g =>
      dsimp only
      cases room.state.shop_items.find?
          (fun it => it.name == itemName && decide (it.cost ≤ g)) <;> exact pos_refl _
  | loot itemName =>
    simp only [handle_action]
    cases room.state.loot_pool.find? (fun it => it.name == itemName) <;> exact pos_refl _
  | next_phase => exact absurd rfl hnp
  | other => exact pos_refl _

/-- Claim C1, amended: the engine invokes no enemy AI at all.  After any
resolved action other than a heal spell or `next_phase`, no player's hit
points change (no enemy ever attacks), and every enemy still present
occupies exactly the position it occupied before (no enemy ever moves);
the heal spell only writes the caster's own hit points and `next_phase`
only replaces the enemy set wholesale with a fresh encounter. -/
theorem claim_c1_no_enemy_ai (rng : Rng) (room : Room) (player : String)
    (action : GameAction) (hheal : is_heal_action action = false)
    (hnp : action ≠ GameAction.next_phase) :
    (websocket_step rng room player action).state.player_hp = room.state.player_hp ∧
    ∀ p ∈ (websocket_step rng room player action).state.enemies,
      ∃ e : Enemy, (p.1, e) ∈ room.state.enemies ∧ (Prod.snd p).position = e.position := by
  unfold websocket_step
  split_ifs with ht
  · constructor
    · rw [resolve_hp_eq]
      exact handle_action_hp rng room player action hheal
    · intro p hp
      rw [resolve_enemies_eq] at hp
      exact handle_action_enemy_pos rng room player action hnp p hp
  · exact ⟨rfl, pos_refl _⟩

/-- Witness for the amended C1: a concrete attack in `roomC1`. -/
theorem claim_c1_witness :
    (websocket_step rng0 roomC1 "A" (GameAction.attack "Goblin 1")).state.player_hp =
      roomC1.state.player_hp ∧
    ∀ p ∈ (websocket_step rng0 roomC1 "A" (GameAction.attack "Goblin 1")).state.enemies,
      ∃ e : Enemy, (p.1, e) ∈ roomC1.state.enemies ∧ (Prod.snd p).position = e.position :=
  claim_c1_no_enemy_ai rng0 roomC1 "A" (GameAction.attack "Goblin 1")
    (by decide) (by decide)

/-- Counterexample to C1 as stated: in `roomC1` a living Goblin with
attack damage 8 is adjacent (Manhattan distance 1) to player `A`, the room
has no winner, yet after `A`'s resolved action the player's hit points are
still 20 (the claimed enemy attack would leave 12) and the enemy record is
entirely unchanged — no enemy AI ran. -/
theorem claim_c1_counterexample :
    lookupK roomC1.state.enemies "Goblin 1" = some (mk_enemy "Goblin 1" (0, 1) 30) ∧
    (mk_enemy "Goblin 1" (0, 1) 30).damage = 8 ∧
    0 < (mk_enemy "Goblin 1" (0, 1) 30).hp ∧
    lookupK roomC1.state.player_positions "A" = some (0, 0) ∧
    manhattan (0, 0) (0, 1) = 1 ∧
    roomC1.state.winner = none ∧
    lookupK roomC1.state.player_hp "A" = some 20 ∧
    lookupK (websocket_step rng0 roomC1 "A" (GameAction.move "left")).state.player_hp
      "A" = some 20 ∧
    lookupK (websocket_step rng0 roomC1 "A" (GameAction.move "left")).state.enemies
      "Goblin 1" = some (mk_enemy "Goblin 1" (0, 1) 30) := by
  decide

/-- Claim C3, amended: an Attack is resolved whenever the named target
exists in the enemy dict — adjacency is never checked — and it reduces the
target's hit points by the random draw `randint(5, 15)`, not by a fixed 3;
the target is removed when its hit points drop to 0 or below, updated in
place otherwise, and no other enemy entry changes.  A missing target is a
no-op. -/
theorem claim_c3_attack_resolution (rng : Rng) (room : Room) (player target : String)
    (hlo : 5 ≤ rng.atkDamage) (hhi : rng.atkDamage ≤ 15)
    (hnd : KeysNodup room.state.enemies) :
    (lookupK room.state.enemies target = none →
       handle_action rng room player (GameAction.attack target) = room.state) ∧
    (∀ e : Enemy, lookupK room.state.enemies target = some e →
       (∀ n, n ≠ target →
          lookupK (handle_action rng room player (GameAction.attack target)).enemies n =
            lookupK room.state.enemies n) ∧
       (e.hp - rng.atkDamage ≤ 0 →
          lookupK (handle_action rng room player (GameAction.attack target)).enemies
            target = none) ∧
       (0 < e.hp - rng.atkDamage →
          lookupK (handle_action rng room player (GameAction.attack target)).enemies
            target = some { e with hp := e.hp - rng.atkDamage })) :=
  damage_enemy_spec room.state target rng.atkDamage hnd

/-- Witness for the amended C3: the non-adjacent attack in `roomC3`. -/
theorem claim_c3_witness :
    (lookupK roomC3.state.enemies "Goblin 1" = none →
       handle_action rng0 roomC3 "A" (GameAction.attack "Goblin 1") = roomC3.state) ∧
    (∀ e : Enemy, lookupK roomC3.state.enemies "Goblin 1" = some e →
       (∀ n, n ≠ "Goblin 1" →
          lookupK (handle_action rng0 roomC3 "A" (GameAction.attack "Goblin 1")).enemies
            n = lookupK roomC3.state.enemies n) ∧
       (e.hp - rng0.atkDamage ≤ 0 →
          lookupK (handle_action rng0 roomC3 "A" (GameAction.attack "Goblin 1")).enemies
            "Goblin 1" = none) ∧
       (0 < e.hp - rng0.atkDamage →
          lookupK (handle_action rng0 roomC3 "A" (GameAction.attack "Goblin 1")).enemies
            "Goblin 1" = some { e with hp := e.hp - rng0.atkDamage })) :=
  claim_c3_attack_resolution rng0 roomC3 "A" "Goblin 1" (by decide) (by decide) (by decide)

/-- Counterexample to C3 as stated: in `roomC3` the target stands at
Manhattan distance 10 from the acting player — far from adjacent — yet the
attack lands, and the damage dealt is 7 (a `randint(5, 15)` draw), not the
claimed fixed 3. -/
theorem claim_c3_counterexample :
    lookupK roomC3.state.player_positions "A" = some (0, 0) ∧
    lookupK roomC3.state.enemies "Goblin 1" = some (mk_enemy "Goblin 1" (5, 5) 30) ∧
    manhattan (0, 0) (5, 5) = 10 ∧
    lookupK (websocket_step rng0 roomC3 "A" (GameAction.attack "Goblin 1")).state.enemies
      "Goblin 1" = some (mk_enemy "Goblin 1" (5, 5) 23) ∧
    (30 : Int) - 23 ≠ 3 := by
  decide

/-- Claim C4, amended: a Fireball against an enemy target damages only the
named target itself — there is no splash onto enemies within distance 1,
and no range check on the caster.  The target's hit points drop by the
random draw `randint(15, 25)`; it is removed if they reach 0 or below; all
other enemy entries are untouched. -/
theorem claim_c4_fireball_resolution (rng : Rng) (room : Room) (player t : String)
    (hlo : 15 ≤ rng.spellDamage) (hhi : rng.spellDamage ≤ 25)
    (hnd : KeysNodup room.state.enemies) :
    (lookupK room.state.enemies t = none →
       handle_action rng room player (GameAction.spell "Fireball" (some t)) =
         room.state) ∧
    (∀ e : Enemy, lookupK room.state.enemies t = some e →
       (∀ n, n ≠ t →
          lookupK (handle_action rng room player
            (GameAction.spell "Fireball" (some t))).enemies n =
            lookupK room.state.enemies n) ∧
       (e.hp - rng.spellDamage ≤ 0 →
          lookupK (handle_action rng room player
            (GameAction.spell "Fireball" (some t))).enemies t = none) ∧
       (0 < e.hp - rng.spellDamage →
          lookupK (handle_action rng room player
            (GameAction.spell "Fireball" (some t))).enemies t =
            some { e with hp := e.hp - rng.spellDamage })) :=
  damage_enemy_spec room.state t rng.spellDamage hnd

/-- Witness for the amended C4: the Fireball in `roomC4`. -/
theorem claim_c4_witness :
    (lookupK roomC4.state.enemies "Orc 1" = none →
       handle_action rng0 roomC4 "A" (GameAction.spell "Fireball" (some "Orc 1")) =
         roomC4.state) ∧
    (∀ e : Enemy, lookupK roomC4.state.enemies "Orc 1" = some e →
       (∀ n, n ≠ "Orc 1" →
          lookupK (handle_action rng0 roomC4 "A"
            (GameAction.spell "Fireball" (some "Orc 1"))).enemies n =
            lookupK roomC4.state.enemies n) ∧
       (e.hp - rng0.spellDamage ≤ 0 →
          lookupK (handle_action rng0 roomC4 "A"
            (GameAction.spell "Fireball" (some "Orc 1"))).enemies "Orc 1" = none) ∧
       (0 < e.hp - rng0.spellDamage →
          lookupK (handle_action rng0 roomC4 "A"
            (GameAction.spell "Fireball" (some "Orc 1"))).enemies "Orc 1" =
            some { e with hp := e.hp - rng0.spellDamage })) :=
  claim_c4_fireball_resolution rng0 roomC4 "A" "Orc 1" (by decide) (by decide) (by decide)

/-- Counterexample to C4 as stated: in `roomC4` two other enemies stand at
Manhattan distance 1 from the Fireball target, yet after the cast only the
target has lost hit points (30 to 10); the two splash candidates still
have their full 30 — no area damage is applied. -/
theorem claim_c4_counterexample :
    lookupK roomC4.state.enemies "Orc 2" = some (mk_enemy "Orc 2" (2, 3) 30) ∧
    lookupK roomC4.state.enemies "Orc 3" = some (mk_enemy "Orc 3" (3, 2) 30) ∧
    manhattan (2, 2) (2, 3) = 1 ∧
    manhattan (2, 2) (3, 2) = 1 ∧
    lookupK (websocket_step rng0 roomC4 "A"
      (GameAction.spell "Fireball" (some "Orc 1"))).state.enemies "Orc 1" =
      some (mk_enemy "Orc 1" (2, 2) 10) ∧
    lookupK (websocket_step rng0 roomC4 "A"
      (GameAction.spell "Fireball" (some "Orc 1"))).state.enemies "Orc 2" =
      some (mk_enemy "Orc 2" (2, 3) 30) ∧
    lookupK (websocket_step rng0 roomC4 "A"
      (GameAction.spell "Fireball" (some "Orc 1"))).state.enemies "Orc 3" =
      some (mk_enemy "Orc 3" (3, 2) 30) := by
  decide

/-- Claim C5, amended: movement checks only the grid bounds (a step off
the edge is refused); destination occupancy is never consulted, so a move
whose destination cell is occupied by a living enemy still goes through
and the two living entities then share the cell. -/
theorem claim_c5_move_ignores_occupancy (rng : Rng) (room : Room)
    (player dir n : String) (e : Enemy) (pos : Int × Int)
    (hpos : lookupK room.state.player_positions player = some pos)
    (hen : lookupK room.state.enemies n = some e)
    (hlive : 0 < e.hp)
    (hocc : move_dest dir pos = e.position) :
    lookupK (handle_action rng room player (GameAction.move dir)).player_positions
      player = some e.position ∧
    lookupK (handle_action rng room player (GameAction.move dir)).enemies n = some e := by
  constructor
  · show lookupK (setK room.state.player_positions player
      (move_dest dir (getDK room.state.player_positions player (0, 0)))) player = _
    rw [lookupK_setK, if_pos rfl]
    simp [getDK, hpos, hocc]
  · exact hen

/-- Witness for the amended C5: the move onto the Goblin's cell in
`roomC5`. -/
theorem claim_c5_witness :
    lookupK (handle_action rng0 roomC5 "A" (GameAction.move "right")).player_positions
      "A" = some (mk_enemy "Goblin 1" (1, 0) 30).position ∧
    lookupK (handle_action rng0 roomC5 "A" (GameAction.move "right")).enemies
      "Goblin 1" = some (mk_enemy "Goblin 1" (1, 0) 30) :=
  claim_c5_move_ignores_occupancy rng0 roomC5 "A" "right" "Goblin 1"
    (mk_enemy "Goblin 1" (1, 0) 30) (0, 0) (by decide) (by decide) (by decide) (by decide)

/-- Counterexample to C5 as stated: in `roomC5` the cell `(1, 0)` is
occupied by a living Goblin, yet player `A`'s move right from `(0, 0)`
is not rejected — the resulting snapshot has the player and the living
enemy on the same cell, violating both conjuncts of the claim. -/
theorem claim_c5_counterexample :
    lookupK roomC5.state.player_positions "A" = some (0, 0) ∧
    lookupK roomC5.state.enemies "Goblin 1" = some (mk_enemy "Goblin 1" (1, 0) 30) ∧
    0 < (mk_enemy "Goblin 1" (1, 0) 30).hp ∧
    (mk_enemy "Goblin 1" (1, 0) 30).position = (1, 0) ∧
    lookupK (websocket_step rng0 roomC5 "A"
      (GameAction.move "right")).state.player_positions "A" = some (1, 0) ∧
    lookupK (websocket_step rng0 roomC5 "A" (GameAction.move "right")).state.enemies
      "Goblin 1" = some (mk_enemy "Goblin 1" (1, 0) 30) := by
  decide

/-- Claim C6: a shop purchase succeeds only against a listing whose name
matches and whose price the buyer can afford; on success it deducts
exactly the price, appends the purchased listing to the buyer's inventory,
leaves every other player's gold untouched, and can never drive the
buyer's gold below zero. -/
theorem claim_c6_buy (rng : Rng) (room : Room) (player itemName : String) (g : Int)
    (hg : lookupK room.state.gold player = some g) :
    ((∀ it ∈ room.state.shop_items, ¬(it.name = itemName ∧ it.cost ≤ g)) →
       handle_action rng room player (GameAction.shop itemName) = room.state) ∧
    (∀ it : Item,
       room.state.shop_items.find?
         (fun x => x.name == itemName && decide (x.cost ≤ g)) = some it →
       it ∈ room.state.shop_items ∧ it.name = itemName ∧ it.cost ≤ g ∧
       lookupK (handle_action rng room player (GameAction.shop itemName)).gold player =
         some (g - it.cost) ∧
       0 ≤ g - it.cost ∧
       (∀ n, n ≠ player →
          lookupK (handle_action rng room player (GameAction.shop itemName)).gold n =
            lookupK room.state.gold n) ∧
       (∀ inv, lookupK room.state.inventory player = some inv →
          lookupK (handle_action rng room player (GameAction.shop itemName)).inventory
            player = some (inv ++ [it]))) := by
  constructor
  · intro hnone
    have hfind : room.state.shop_items.find?
        (fun x => x.name == itemName && decide (x.cost ≤ g)) = none := by
      rw [List.find?_eq_none]
      intro x hx
      have hno := hnone x hx
      simp only [Bool.and_eq_true, beq_iff_eq, decide_eq_true_eq]
      exact fun hc => hno ⟨hc.1, hc.2⟩
    simp only [handle_action, hg, hfind]
  · intro it hfind
    have hmem := List.mem_of_find?_eq_some hfind
    have hpit := List.find?_some hfind
    simp only [Bool.and_eq_true, beq_iff_eq, decide_eq_true_eq] at hpit
    obtain ⟨hname, hcost⟩ := hpit
    refine ⟨hmem, hname, hcost, ?_, by omega, ?_, ?_⟩
    · simp only [handle_action, hg, hfind]
      rw [lookupK_modifyK, if_pos rfl, hg]
      rfl
    · intro n hn
      simp only [handle_action, hg, hfind]
      rw [lookupK_modifyK, if_neg (fun hh => hn hh.symm)]
    · intro inv hinv
      simp only [handle_action, hg, hfind]
      rw [lookupK_modifyK, if_pos rfl, hinv]
      rfl

/-- Witness for C6: buying the 100-gold Iron Sword in `roomC6` with
exactly 100 gold. -/
theorem claim_c6_witness :
    ((∀ it ∈ roomC6.state.shop_items, ¬(it.name = "Iron Sword" ∧ it.cost ≤ 100)) →
       handle_action rng0 roomC6 "A" (GameAction.shop "Iron Sword") = roomC6.state) ∧
    (∀ it : Item,
       roomC6.state.shop_items.find?
         (fun x => x.name == "Iron Sword" && decide (x.cost ≤ (100 : Int))) = some it →
       it ∈ roomC6.state.shop_items ∧ it.name = "Iron Sword" ∧ it.cost ≤ 100 ∧
       lookupK (handle_action rng0 roomC6 "A" (GameAction.shop "Iron Sword")).gold "A" =
         some (100 - it.cost) ∧
       0 ≤ (100 : Int) - it.cost ∧
       (∀ n, n ≠ "A" →
          lookupK (handle_action rng0 roomC6 "A" (GameAction.shop "Iron Sword")).gold n =
            lookupK roomC6.state.gold n) ∧
       (∀ inv, lookupK roomC6.state.inventory "A" = some inv →
          lookupK (handle_action rng0 roomC6 "A"
            (GameAction.shop "Iron Sword")).inventory "A" = some (inv ++ [it]))) :=
  claim_c6_buy rng0 roomC6 "A" "Iron Sword" 100 (by decide)

/-- No handler branch ever leaves a non-positive-hp enemy in the dict:
damaged enemies are deleted at 0 or below, and spawned enemies start
positive. -/
theorem handle_action_alive (rng : Rng) (room : Room) (player : String)
    (action : GameAction) (hInv : enemies_alive room.state) :
    enemies_alive (handle_action rng room player action) := by
  have hdmg : ∀ (target : String) (dmg : Int),
      enemies_alive (damage_enemy room.state target dmg) := by
    intro target dmg p hp
    rcases damage_enemy_cases room.state target dmg with
      hcase | ⟨e, he, ⟨hcase, hg⟩ | ⟨hcase, hg⟩⟩
    · rw [hcase] at hp
      exact hInv p hp
    · rw [hcase] at hp
      exact hInv p (mem_eraseK hp)
    · rw [hcase] at hp
      rcases mem_setK hp with h1 | h1
      · exact hInv p h1
      · subst h1
        exact hg
  cases action with
  | move dir => exact hInv
  | attack target => exact hdmg target rng.atkDamage
  | spell name target =>
    simp only [handle_action]
    split_ifs with h1 h2
    · cases lookupK room.players player <;>
        cases lookupK room.state.player_hp player <;> exact hInv
    · cases target with
      | none => exact hInv
      | some t => exact hdmg t rng.spellDamage
    · exact hInv
  | shop itemName =>
    simp only [handle_action]
    cases lookupK room.state.gold player with
    | none => exact hInv
    | some g =>
      dsimp only
      cases room.state.shop_items.find?
          (fun it => it.name == itemName && decide (it.cost ≤ g)) <;> exact hInv
  | loot itemName =>
    simp only [handle_action]
    cases room.state.loot_pool.find? (fun it => it.name == itemName) <;> exact hInv
  | next_phase =>
    simp only [handle_action, next_phase_action]
    split_ifs <;> first
      | exact generate_encounter_alive _
      | exact hInv
  | other => exact hInv

/-- Claim C8: living enemies stay living — starting from a snapshot whose
active enemy dict contains no entry with hit points at or below zero, the
snapshot after any resolved action again contains no such entry: an enemy
driven to 0 or below by an attack or spell is removed in the same step. -/
theorem claim_c8_no_corpses (rng : Rng) (room : Room) (player : String)
    (action : GameAction) (hInv : enemies_alive room.state) :
    enemies_alive (websocket_step rng room player action).state := by
  unfold websocket_step
  split_ifs with ht
  · intro p hp
    rw [resolve_enemies_eq] at hp
    exact handle_action_alive rng room player action hInv p hp
  · exact hInv

/-- Witness for C8: the kill shot in `roomC8kill` — the 5-hp Goblin takes
7 damage and is gone from the next snapshot. -/
theorem claim_c8_witness :
    enemies_alive (websocket_step rng0
      (mk_room1 [("Goblin 1", mk_enemy "Goblin 1" (0, 1) 5)] (0, 0) [] none)
      "A" (GameAction.attack "Goblin 1")).state :=
  claim_c8_no_corpses rng0
    (mk_room1 [("Goblin 1", mk_enemy "Goblin 1" (0, 1) 5)] (0, 0) [] none)
    "A" (GameAction.attack "Goblin 1") (by decide)
